import Mathlib

/-!
Verification of the narajangteo-search ingestion-and-normalization pipeline
(`app.py`): a shallow embedding of its data-processing functions together with
theorems checking the specification's claims about them.

Modelling conventions:
* Raw XML records are association lists `List (String × Option String)`;
  `none` models a pandas `NaN` cell, `some s` a string cell.
* A pandas `DataFrame` is a column-name list plus rows of cells (`PyDF`).
* Python string helpers (`strip`, `lower`, `in`, `zfill`, `replace(',','')`)
  are re-implemented structurally on `List Char` so that everything is
  executable by `decide`; `replace(',','')` is modelled as removing every
  comma, which is what it does for the one-character pattern used.
* Python `float(...)` is modelled by `pyFloatParse`, a parser for decimal
  literals (optional sign, digits, at most one dot).  Exotic float syntax
  (exponents, `inf`/`nan` literals, digit underscores) is not modelled; the
  functions under test only ever meet money strings.  `int(...)` on the
  parsed value truncates toward zero.  Arithmetic is exact (ℚ / ℤ) rather
  than IEEE double; the program's constants are far below the range where
  double rounding of these products could differ.
* `datetime` instants are integer second counts; `Timedelta.days` is floor
  division by 86400, i.e. `Int` division (`Int.ediv`) by 86400.
-/

/-! ## Python string primitives -/

/-- ASCII decimal digit test (`'0' ≤ c ≤ '9'`), as used by `float()` parsing. -/
def isDigitC (c : Char) : Bool := 48 ≤ c.toNat && c.toNat ≤ 57

/-- Whitespace recognised by Python `str.strip()` (ASCII subset). -/
def isSpaceC (c : Char) : Bool :=
  c = ' ' || c = '\t' || c = '\n' || c = '\r' || c = '\x0b' || c = '\x0c'

/-- `str.strip()` on a character list. -/
def trimList (cs : List Char) : List Char :=
  ((cs.dropWhile isSpaceC).reverse.dropWhile isSpaceC).reverse

/-- `str.strip()`. -/
def pyStrip (s : String) : String := String.mk (trimList s.toList)

/-- `str.lower()` (ASCII case folding, which covers every alias tag used). -/
def lowerStr (s : String) : String := String.mk (s.toList.map Char.toLower)

/-- Does `pat` start the list `hay`? -/
def leadsWith : List Char → List Char → Bool
  | [], _ => true
  | _ :: _, [] => false
  | a :: as, b :: bs => a = b && leadsWith as bs

/-- Contiguous-sublist test on character lists. -/
def containsSub : List Char → List Char → Bool
  | [], pat => pat.isEmpty
  | h :: t, pat => leadsWith pat (h :: t) || containsSub t pat

/-- Python's `pat in s` substring test. -/
def strContains (s pat : String) : Bool := containsSub s.toList pat.toList

/-- `str.zfill(w)`: left-pad with zeros to width `w`, keeping a leading sign. -/
def padZeros (cs : List Char) (w : Nat) : List Char :=
  List.replicate (w - cs.length) '0' ++ cs

/-- `str.zfill`. -/
def zfill (s : String) (w : Nat) : String :=
  match s.toList with
  | '-' :: rest => String.mk ('-' :: padZeros rest (w - 1))
  | '+' :: rest => String.mk ('+' :: padZeros rest (w - 1))
  | cs => String.mk (padZeros cs w)

/-- `str(x)` for a cell: a string is itself, a pandas `NaN` prints as `"nan"`. -/
def cellStr (v : Option String) : String :=
  match v with
  | some s => s
  | none => "nan"

/-- `fillna("")` on one cell. -/
def fillna (v : Option String) : String :=
  match v with
  | some s => s
  | none => ""

/-! ## Python `float` / `int` coercion -/

/-- A parsed Python decimal float literal: sign, integer digits, fraction digits. -/
structure PyFloatLit where
  neg : Bool
  ipart : List Char
  fpart : List Char
  deriving DecidableEq, Repr

/-- Most-significant-first value of a digit list. -/
def digitsVal : List Char → Nat
  | [] => 0
  | c :: cs => (c.toNat - 48) * 10 ^ cs.length + digitsVal cs

/-- Parse the unsigned part of a float literal: digits with at most one dot,
at least one digit overall, nothing else. -/
def parseUnsignedFloat (cs : List Char) : Option (List Char × List Char) :=
  let ip := cs.takeWhile isDigitC
  match cs.dropWhile isDigitC with
  | [] => if ip.isEmpty then none else some (ip, [])
  | '.' :: rest =>
    let fp := rest.takeWhile isDigitC
    if (rest.dropWhile isDigitC).isEmpty && !(ip.isEmpty && fp.isEmpty) then
      some (ip, fp)
    else none
  | _ => none

/-- Model of Python `float(s)` on decimal literals (see module comment). -/
def pyFloatParse (cs : List Char) : Option PyFloatLit :=
  match cs with
  | '-' :: rest => (parseUnsignedFloat rest).map (fun p => ⟨true, p.1, p.2⟩)
  | '+' :: rest => (parseUnsignedFloat rest).map (fun p => ⟨false, p.1, p.2⟩)
  | _ => (parseUnsignedFloat cs).map (fun p => ⟨false, p.1, p.2⟩)

/-- The real value a parsed float literal denotes. -/
def floatVal (p : PyFloatLit) : ℚ :=
  (if p.neg then (-1 : ℚ) else 1) *
    ((digitsVal p.ipart : ℚ) + (digitsVal p.fpart : ℚ) / (10 : ℚ) ^ p.fpart.length)

/-- Python `int(float_literal_value)`: truncation toward zero, which for a
decimal literal is the signed integer part. -/
def pyTruncOfLit (p : PyFloatLit) : Int :=
  (if p.neg then (-1 : Int) else 1) * (digitsVal p.ipart : Int)

/-- Truncation of a rational toward zero, the semantics of Python `int()`. -/
def ratTrunc (q : ℚ) : Int := if 0 ≤ q then ⌊q⌋ else ⌈q⌉

/-- `str(x).replace(',','').strip()`, the cleanup used by `parse_money`. -/
def moneyClean (s : String) : List Char :=
  trimList (s.toList.filter (fun c => !(c = ',')))

/-- `parse_money` (defined identically inside `process_prior_for_excel` and
`process_bid_for_excel`): `int(float(str(x).replace(',','').strip()))` with
any exception absorbed to `0`. -/
def parse_money (x : Option String) : Int :=
  match pyFloatParse (moneyClean (cellStr x)) with
  | some p => pyTruncOfLit p
  | none => 0

/-! ## Minimum-bid computation (`calc_min_bid` in `process_bid_for_excel`) -/

/-- `int(base_price * 0.87745)` without the positivity guard:
truncation toward zero of the exact product. -/
def minBidUnguarded (base : Int) : Int := (base * 87745).tdiv 100000

/-- `calc_min_bid`: base price is the budget when positive, else the estimate;
the 0.87745 factor applies only to a positive base. -/
def calc_min_bid (budget estim : Int) : Int :=
  let base := if budget > 0 then budget else estim
  if base > 0 then minBidUnguarded base else 0

/-! ## Alias resolution (`get_val`, `get_clean_val`) -/

/-- A raw record / DataFrame row as seen by `df.apply(..., axis=1)`. -/
abbrev RawRow := List (String × Option String)

/-- The per-cell test `pd.notna(v) and str(v).strip() != ''`, returning the
stripped value on success. -/
def cellHit (v : Option String) : Option String :=
  match v with
  | none => none
  | some s => if pyStrip s = "" then none else some (pyStrip s)

/-- One iteration of `get_val`'s loop body for a single candidate key:
first an exact key lookup, then a lookup in the lowercased-key dictionary
(whose construction keeps the last value for colliding keys). -/
def keyHit (row : RawRow) (k : String) : Option String :=
  match (row.find? (fun p => p.1 = k)).bind (fun p => cellHit p.2) with
  | some v => some v
  | none =>
    (row.reverse.find? (fun p => lowerStr p.1 = lowerStr k)).bind
      (fun p => cellHit p.2)

/-- `get_val`: try candidate keys in order, return the first hit, else the
default. -/
def get_val (row : RawRow) (keys : List String) (dflt : String) : String :=
  match keys with
  | [] => dflt
  | k :: ks =>
    match keyHit row k with
    | some v => v
    | none => get_val row ks dflt

/-- `get_clean_val`: `get_val` with empty default (the body's
`val if val else ""` is the identity on the `''`-defaulted result). -/
def get_clean_val (row : RawRow) (keys : List String) : String :=
  get_val row keys ""

/-! ## Exclusion filter (`apply_exclusion_filter`) -/

/-- `apply_exclusion_filter`: drop rows whose designated text contains any
exclusion keyword; a no-op on an empty frame or empty keyword list.
`titleOf` plays the role of `str(x)` on the target column's cell. -/
def apply_exclusion_filter {α : Type} (rows : List α) (titleOf : α → String)
    (excl : List String) : List α :=
  if rows.isEmpty || excl.isEmpty then rows
  else rows.filter (fun r => !(excl.any (fun e => strContains (titleOf r) e)))

/-! ## DataFrame model and sorting/numbering helpers -/

/-- A pandas DataFrame: column names plus rows of cells, positionally aligned. -/
structure PyDF where
  cols : List String
  rows : List (List (Option String))
  deriving DecidableEq, Repr

/-- Case-insensitive column search (`col.lower() == tag.lower()`, first hit),
used by `process_prior_for_excel` and `process_bid_for_excel`. -/
def findColLower (cols : List String) (tag : String) : Option Nat :=
  cols.findIdx? (fun c => lowerStr c = lowerStr tag)

/-- Exact, case-sensitive column search (`tag in df.columns`),
used by `process_rd_for_excel`. -/
def findColExact (cols : List String) (tag : String) : Option Nat :=
  cols.findIdx? (fun c => c = tag)

/-- The cell of `row` for tag `tag` under case-insensitive resolution:
`none` when the column is absent, `some cell` when found. -/
def resolveCellLower (cols : List String) (row : List (Option String))
    (tag : String) : Option (Option String) :=
  (findColLower cols tag).map (fun i => row.getD i none)

/-- Stable insertion into a `le`-sorted list: the new element goes before the
first position where it may (so equal keys keep their original order). -/
def insertSorted {α : Type} (le : α → α → Bool) (x : α) : List α → List α
  | [] => [x]
  | y :: ys => if le x y then x :: y :: ys else y :: insertSorted le x ys

/-- Stable sort by a boolean `le`, modelling `DataFrame.sort_values`
(the claims checked here never depend on the order of tied keys). -/
def sortBy {α : Type} (le : α → α → Bool) : List α → List α
  | [] => []
  | x :: xs => insertSorted le x (sortBy le xs)

/-- `insert(0, 'No.', range(1, len+1))`: dense 1-based numbering. -/
def numberFrom {α : Type} (n : Nat) : List α → List (Nat × α)
  | [] => []
  | x :: xs => (n, x) :: numberFrom (n + 1) xs

/-! ## Order-plan normalization (`process_order_for_excel`) -/

/-- One normalized order-plan row (all seven produced columns). -/
structure OrderRow where
  /-- 용역구분 -/
  svcDiv : String
  /-- 업무구분 -/
  taskDiv : String
  /-- 발주시기 -/
  timing : String
  /-- 사업명 -/
  bizName : String
  /-- 총발주금액(원) -/
  amount : Int
  /-- 발주기관명 -/
  agency : String
  /-- 게시일자 -/
  postDate : String
  deriving DecidableEq, Repr

/-- Build one order-plan row.  The amount column is
`int(float(get_val(r, ['sumOrderAmt','totlAmt'], '0').replace(',','')))` with
NO exception guard, so a malformed amount makes the whole computation raise:
that is modelled by returning `none`. -/
def buildOrderRow (r : RawRow) : Option OrderRow :=
  match pyFloatParse
      ((get_val r ["sumOrderAmt", "totlAmt"] "0").toList.filter
        (fun c => !(c = ','))) with
  | none => none
  | some p =>
    some
      { svcDiv :=
          if get_val r ["bsnsDivCd"] "" = "03" then "일반용역"
          else if get_val r ["bsnsDivCd"] "" = "05" then "기술용역"
          else ""
        taskDiv := get_val r ["bsnsTyNm", "bztyNm"] ""
        timing :=
          if get_val r ["orderYear"] "" = "" then ""
          else get_val r ["orderYear"] "" ++ "/" ++
            zfill (get_val r ["orderMnth"] "") 2
        bizName := get_clean_val r ["bizNm", "prdctClsfNoNm", "prdctClsfcNoNm", "cntrctNm"]
        amount := pyTruncOfLit p
        agency := get_clean_val r ["orderInsttNm", "dmndInsttNm", "realOrgNm"]
        postDate := get_val r ["nticeDt", "opengDt"] "" }

/-- `process_order_for_excel`: build all columns (a malformed amount anywhere
raises, hence `none`), drop rows with blank 사업명, apply the exclusion filter,
sort by 발주시기 ascending, renumber. -/
def process_order_for_excel (rows : List RawRow) (excl : List String) :
    Option (List (Nat × OrderRow)) :=
  match rows.mapM buildOrderRow with
  | none => none
  | some built =>
    let kept := built.filter (fun r => decide (pyStrip r.bizName ≠ ""))
    let kept2 := apply_exclusion_filter kept (fun r => r.bizName) excl
    let sorted := sortBy (fun a b => decide (a.timing ≤ b.timing)) kept2
    some (numberFrom 1 sorted)

/-! ## Prior-specification normalization (`process_prior_for_excel`) -/

/-- The claim-relevant subset of the 18 prior-spec columns: the designated
title (사업명(품명) from `prdctClsfcNoNm`), the money column (배정예산액(원)
from `asignBdgtAmt`) and the sort key (공개일시 from `rcptDt`).  Every other
column is produced by the same `resolveCellLower`/`fillna` scheme as the
title and plays no role in any verified property. -/
structure PriorRow where
  /-- 사업명(품명) -/
  title : String
  /-- 배정예산액(원) -/
  budget : Int
  /-- 공개일시 -/
  openDate : String
  deriving DecidableEq, Repr

/-- Build one prior-spec row: case-insensitive column match, `fillna("")` for
text, `parse_money` for money; an absent column yields the default. -/
def buildPriorRow (cols : List String) (row : List (Option String)) : PriorRow :=
  { title :=
      match resolveCellLower cols row "prdctClsfcNoNm" with
      | some v => fillna v
      | none => ""
    budget :=
      match resolveCellLower cols row "asignBdgtAmt" with
      | some v => parse_money v
      | none => 0
    openDate :=
      match resolveCellLower cols row "rcptDt" with
      | some v => fillna v
      | none => "" }

/-- `process_prior_for_excel`: normalize, drop blank titles, exclusion filter,
sort by 공개일시 ascending, renumber. -/
def process_prior_for_excel (df : PyDF) (excl : List String) :
    List (Nat × PriorRow) :=
  let built := df.rows.map (buildPriorRow df.cols)
  let kept := built.filter (fun r => decide (pyStrip r.title ≠ ""))
  let kept2 := apply_exclusion_filter kept (fun r => r.title) excl
  let sorted := sortBy (fun a b => decide (a.openDate ≤ b.openDate)) kept2
  numberFrom 1 sorted

/-! ## Bid-notice normalization (`process_bid_for_excel`) -/

/-- The claim-relevant subset of the 27 bid-notice columns: designated title
(공고명 from `bidNtceNm`), the two money inputs of the minimum-bid derivation
(배정예산(원) from `asignBdgtAmt`, 추정가격(원) from `presmptPrce`), the sort
key (게시일시 from `bidNtceDt`) and the derived 예상 투찰하한가(원).  The
remaining columns follow the same `resolveCellLower`/`fillna`/`parse_money`
scheme and appear in no verified property. -/
structure BidRow where
  /-- 공고명 -/
  title : String
  /-- 배정예산(원) -/
  budget : Int
  /-- 추정가격(원) -/
  estim : Int
  /-- 게시일시 -/
  postDate : String
  /-- 예상 투찰하한가(원), derived by `calc_min_bid` -/
  minBid : Int
  deriving DecidableEq, Repr

/-- Build one bid-notice row, deriving the minimum bid from the already
coerced budget and estimate columns. -/
def buildBidRow (cols : List String) (row : List (Option String)) : BidRow :=
  let b :=
    match resolveCellLower cols row "asignBdgtAmt" with
    | some v => parse_money v
    | none => 0
  let e :=
    match resolveCellLower cols row "presmptPrce" with
    | some v => parse_money v
    | none => 0
  { title :=
      match resolveCellLower cols row "bidNtceNm" with
      | some v => fillna v
      | none => ""
    budget := b
    estim := e
    postDate :=
      match resolveCellLower cols row "bidNtceDt" with
      | some v => fillna v
      | none => ""
    minBid := calc_min_bid b e }

/-- `process_bid_for_excel`: normalize, derive the minimum bid, drop blank
titles, exclusion filter, sort by 게시일시 ascending, renumber. -/
def process_bid_for_excel (df : PyDF) (excl : List String) :
    List (Nat × BidRow) :=
  let built := df.rows.map (buildBidRow df.cols)
  let kept := built.filter (fun r => decide (pyStrip r.title ≠ ""))
  let kept2 := apply_exclusion_filter kept (fun r => r.title) excl
  let sorted := sortBy (fun a b => decide (a.postDate ≤ b.postDate)) kept2
  numberFrom 1 sorted

/-! ## R&D-notice normalization (`process_rd_for_excel`) -/

/-- One normalized R&D row (all four produced columns).  Cells stay `Option`
because this processor applies no `fillna`: a cell may be a string, or `NaN`
(`none`) — either carried over from the raw frame or produced by pandas'
empty-index reindex backfill described at `rdCellAt`. -/
structure RDRow where
  /-- 과제공고명 -/
  title : Option String
  /-- 공고기관 -/
  dept : Option String
  /-- 공고일자 -/
  regDate : Option String
  /-- 공고링크(URL) -/
  url : Option String
  deriving DecidableEq, Repr

/-- Is the R&D tag present as a column, exactly and case-sensitively
(`tag in df.columns`)? -/
def rdTagPresent (cols : List String) (tag : String) : Bool :=
  (findColExact cols tag).isSome

/-- One cell of `new_df[kr_col] = df[tag] if tag in df.columns else ""`,
following pandas assignment semantics on the growing `new_df`:
* a present tag assigns the raw column's values (the first such assignment
  establishes `new_df`'s index; later ones align on the identical index);
* an absent tag assigns the scalar `""`, which broadcasts to `""` per row
  only if the index is already established (`indexSet`); a scalar assigned
  while the index is still empty produces a zero-row column, and the later
  index-establishing assignment reindexes it with `NaN` backfill (`none`). -/
def rdCellAt (cols : List String) (row : List (Option String)) (tag : String)
    (indexSet : Bool) : Option String :=
  match findColExact cols tag with
  | some i => row.getD i none
  | none => if indexSet then some "" else none

/-- Build one R&D row from the fixed tag map, assigned in `col_map` order
(`subject`, `deptName`, `regDate`, `viewUrl`): each absent tag's cell depends
on whether an earlier tag already established the index. -/
def buildRDRow (cols : List String) (row : List (Option String)) : RDRow :=
  { title := rdCellAt cols row "subject" false
    dept := rdCellAt cols row "deptName" (rdTagPresent cols "subject")
    regDate := rdCellAt cols row "regDate"
      (rdTagPresent cols "subject" || rdTagPresent cols "deptName")
    url := rdCellAt cols row "viewUrl"
      (rdTagPresent cols "subject" || rdTagPresent cols "deptName" ||
        rdTagPresent cols "regDate") }

/-- Sort key for the R&D sheet: 공고일자 descending, `NaN` last. -/
def rdDescLe (a b : RDRow) : Bool :=
  match a.regDate, b.regDate with
  | some x, some y => decide (y ≤ x)
  | some _, none => true
  | none, some _ => false
  | none, none => true

/-- `process_rd_for_excel`: map the four tags (case-sensitively), apply the
keyword inclusion filter only when keywords were supplied, then the exclusion
filter, sort by 공고일자 descending, renumber.  Note: no blank-title filter.
If NO tag matches a column, every assignment is a scalar on `new_df`'s
never-established (empty) index, so the resulting table has zero rows. -/
def process_rd_for_excel (df : PyDF) (keywords excl : List String) :
    List (Nat × RDRow) :=
  if rdTagPresent df.cols "subject" || rdTagPresent df.cols "deptName" ||
      rdTagPresent df.cols "regDate" || rdTagPresent df.cols "viewUrl" then
    let built := df.rows.map (buildRDRow df.cols)
    let kept :=
      if keywords.isEmpty then built
      else built.filter (fun r => keywords.any (fun k => strContains (cellStr r.title) k))
    let kept2 := apply_exclusion_filter kept (fun r => cellStr r.title) excl
    let sorted := sortBy rdDescLe kept2
    numberFrom 1 sorted
  else []

/-! ## Paginated fetch loop (`fetch_data_from_api`) -/

/-- One page response as the loop body sees it: an HTTP status other than 200
(the 500 case only adds a user-facing message), any transport/parse exception,
or a parsed page with its item list and the `totalCount` body field
(`none` when the element is absent). -/
inductive PageResp where
  | httpNon200 : Nat → PageResp
  | exn : PageResp
  | ok : List RawRow → Option Int → PageResp
  deriving DecidableEq

/-- Outcome of one loop iteration: break with the accumulated items, or
continue to the next page with them. -/
inductive StepOut where
  | stop : List RawRow → StepOut
  | next : List RawRow → StepOut
  deriving DecidableEq

/-- The body of `fetch_data_from_api`'s `while` loop for one page.
`isRD` selects the `msitBusinessNotice` branch (page size 10); other
endpoints use page size 500 and never check page fullness. -/
def fetchStep (isRD : Bool) (acc : List RawRow) (page : Nat) (r : PageResp) :
    StepOut :=
  match r with
  | .httpNon200 _ => .stop acc
  | .exn => .stop acc
  | .ok items tc =>
    if items.isEmpty then .stop acc
    else
      let acc2 := acc ++ items
      if isRD then
        if items.length < 10 || 30 ≤ page then .stop acc2 else .next acc2
      else
        match tc with
        | some t => if t ≤ (acc2.length : Int) then .stop acc2 else .next acc2
        | none => .next acc2

/-- `fetch_data_from_api` driven by a page-indexed response oracle.  The
Python loop is `while True`; the fuel argument only bounds the recursion and
a run that exhausts it returns the accumulator (a response sequence that
never meets a stop condition loops forever in the original). -/
def fetch_data_from_api (isRD : Bool) (resp : Nat → PageResp) :
    Nat → List RawRow → Nat → List RawRow
  | 0, acc, _ => acc
  | fuel + 1, acc, page =>
    match fetchStep isRD acc page (resp page) with
    | .stop a => a
    | .next a => fetch_data_from_api isRD resp fuel a (page + 1)

/-! ## Bid-notice window splitter (`fetch_bid_data_split`) -/

/-- Seconds per day; window arithmetic is done on second-count instants. -/
def secPerDay : Int := 86400

/-- Start of window `i`: `now - timedelta(days=(i+1)*30)`. -/
def windowStart (now : Int) (i : Nat) : Int :=
  now - ((i : Int) + 1) * 30 * secPerDay

/-- End of window `i`: `now - timedelta(days=i*30)`. -/
def windowEnd (now : Int) (i : Nat) : Int :=
  now - (i : Int) * 30 * secPerDay

/-- The fetches issued for window `i`: one per keyword, in keyword order,
each tagged with the window's begin/end instants. -/
def windowFetches (now : Int) (keywords : List String) (i : Nat) :
    List (Int × Int × String) :=
  keywords.map (fun kw => (windowStart now i, windowEnd now i, kw))

/-- The items one window contributes, given the fetcher `f`. -/
def windowItems (f : Int → Int → String → List RawRow) (now : Int)
    (keywords : List String) (i : Nat) : List RawRow :=
  keywords.flatMap (fun kw => f (windowStart now i) (windowEnd now i) kw)

/-- One iteration of the `for i in range(months)` loop of
`fetch_bid_data_split`: fetch every keyword for window `i`, then report
progress `(i+1, months)`.  The state is (items, fetch log, callback log). -/
def splitStep (f : Int → Int → String → List RawRow) (now : Int)
    (keywords : List String) (months : Nat)
    (st : List RawRow × List (Int × Int × String) × List (Nat × Nat))
    (i : Nat) :
    List RawRow × List (Int × Int × String) × List (Nat × Nat) :=
  (st.1 ++ windowItems f now keywords i,
   st.2.1 ++ windowFetches now keywords i,
   st.2.2 ++ [(i + 1, months)])

/-- `fetch_bid_data_split`, instrumented with the list of fetch calls it
issues and the progress-callback invocations it makes. -/
def fetch_bid_data_split (f : Int → Int → String → List RawRow) (now : Int)
    (keywords : List String) (months : Nat) :
    List RawRow × List (Int × Int × String) × List (Nat × Nat) :=
  (List.range months).foldl (splitStep f now keywords months) ([], [], [])

/-! ## Urgency highlighting (`apply_styles` deadline test) -/

/-- `(deadline - now).days <= 7 and (deadline > now)` on parsed instants in
seconds; `Timedelta.days` floors, which for the positive divisor 86400 is
`Int` division. -/
def is_urgent (now deadline : Int) : Bool :=
  decide ((deadline - now) / 86400 ≤ 7) && decide (deadline > now)

/-! # Helper lemmas -/

theorem mem_insertSorted {α : Type} (le : α → α → Bool) (x a : α) (l : List α) :
    a ∈ insertSorted le x l ↔ a = x ∨ a ∈ l := by
  induction l with
  | nil => simp [insertSorted]
  | cons y ys ih =>
    simp only [insertSorted]
    split
    · simp [List.mem_cons]
    · rw [List.mem_cons, ih, List.mem_cons]
      tauto

theorem mem_sortBy {α : Type} (le : α → α → Bool) (a : α) (l : List α) :
    a ∈ sortBy le l ↔ a ∈ l := by
  induction l with
  | nil => simp [sortBy]
  | cons x xs ih => simp [sortBy, mem_insertSorted, ih]

theorem mem_numberFrom {α : Type} :
    ∀ (n : Nat) (l : List α) (p : Nat × α), p ∈ numberFrom n l → p.2 ∈ l := by
  intro n l
  induction l generalizing n with
  | nil => intro p hp; simp [numberFrom] at hp
  | cons x xs ih =>
    intro p hp
    simp only [numberFrom, List.mem_cons] at hp
    rcases hp with h | h
    · subst h; simp
    · exact List.mem_cons_of_mem _ (ih (n + 1) p h)

theorem mem_of_mem_exclusion {α : Type} (rows : List α) (titleOf : α → String)
    (excl : List String) (r : α) (h : r ∈ apply_exclusion_filter rows titleOf excl) :
    r ∈ rows := by
  unfold apply_exclusion_filter at h
  split at h
  · exact h
  · exact List.mem_of_mem_filter h

/-- Membership in the common tail of the normalizers
(validity filter, exclusion filter, sort, renumber) implies the row passed
the validity predicate and came from the unfiltered list. -/
theorem mem_pipeline {α : Type} (l : List α) (pred : α → Bool)
    (titleOf : α → String) (excl : List String) (le : α → α → Bool)
    (p : Nat × α)
    (hp : p ∈ numberFrom 1 (sortBy le
      (apply_exclusion_filter (List.filter pred l) titleOf excl))) :
    pred p.2 = true ∧ p.2 ∈ l := by
  have h2 := mem_numberFrom _ _ _ hp
  rw [mem_sortBy] at h2
  have h3 := mem_of_mem_exclusion _ _ _ _ h2
  have h4 := List.mem_filter.mp h3
  exact ⟨h4.2, h4.1⟩

theorem digitsVal_lt : ∀ (cs : List Char), cs.all isDigitC = true →
    digitsVal cs < 10 ^ cs.length := by
  intro cs
  induction cs with
  | nil => intro _; simp [digitsVal]
  | cons c cs ih =>
    intro h
    rw [List.all_cons, Bool.and_eq_true] at h
    have hc : c.toNat - 48 ≤ 9 := by
      have h1 := h.1
      simp only [isDigitC, Bool.and_eq_true, decide_eq_true_eq] at h1
      omega
    have h2 := ih h.2
    simp only [digitsVal, List.length_cons, pow_succ]
    have h3 : (c.toNat - 48) * 10 ^ cs.length ≤ 9 * 10 ^ cs.length :=
      Nat.mul_le_mul_right _ hc
    omega

theorem all_isDigit_of_parseUnsigned (ds : List Char) (q : List Char × List Char)
    (hq : parseUnsignedFloat ds = some q) : q.2.all isDigitC = true := by
  simp only [parseUnsignedFloat] at hq
  split at hq
  · split at hq
    · exact absurd hq (by simp)
    · obtain rfl : (ds.takeWhile isDigitC, ([] : List Char)) = q :=
        Option.some.inj hq
      simp
  · split at hq
    · obtain rfl := Option.some.inj hq
      simp [List.all_takeWhile]
    · exact absurd hq (by simp)
  · exact absurd hq (by simp)

theorem fpart_all_isDigit (cs : List Char) (p : PyFloatLit)
    (h : pyFloatParse cs = some p) : p.fpart.all isDigitC = true := by
  simp only [pyFloatParse] at h
  split at h <;>
  · rw [Option.map_eq_some'] at h
    obtain ⟨q, hq, hfq⟩ := h
    subst hfq
    exact all_isDigit_of_parseUnsigned _ _ hq

/-- Truncation toward zero of `±(a + x)` with `0 ≤ x < 1` is `±a`. -/
theorem ratTrunc_add_frac (a : ℕ) (x : ℚ) (h0 : 0 ≤ x) (h1 : x < 1) :
    ratTrunc ((a : ℚ) + x) = (a : ℤ) ∧ ratTrunc (-((a : ℚ) + x)) = -(a : ℤ) := by
  have hfl : ⌊(a : ℚ) + x⌋ = (a : ℤ) := by
    rw [add_comm, Int.floor_add_nat,
      Int.floor_eq_zero_iff.mpr (Set.mem_Ico.mpr ⟨h0, h1⟩), zero_add]
  constructor
  · unfold ratTrunc
    rw [if_pos (add_nonneg (Nat.cast_nonneg a) h0), hfl]
  · unfold ratTrunc
    by_cases hz : (0 : ℚ) ≤ -((a : ℚ) + x)
    · rw [if_pos hz]
      have hax : (a : ℚ) + x = 0 :=
        le_antisymm (by linarith) (add_nonneg (Nat.cast_nonneg a) h0)
      have ha : (a : ℚ) = 0 := by
        have := Nat.cast_nonneg (α := ℚ) a
        linarith
      have haz : (a : ℤ) = 0 := by exact_mod_cast ha
      rw [hax, neg_zero, Int.floor_zero, haz, neg_zero]
    · rw [if_neg hz, Int.ceil_neg, hfl]

/-- For a parsed decimal literal, truncating the exact real value toward zero
gives the signed integer part — Python's `int(float(s))`. -/
theorem ratTrunc_floatVal (p : PyFloatLit) (hf : p.fpart.all isDigitC = true) :
    ratTrunc (floatVal p) = pyTruncOfLit p := by
  have hxnn : (0 : ℚ) ≤ (digitsVal p.fpart : ℚ) / (10 : ℚ) ^ p.fpart.length := by
    positivity
  have hxlt : (digitsVal p.fpart : ℚ) / (10 : ℚ) ^ p.fpart.length < 1 := by
    rw [div_lt_one (by positivity)]
    exact_mod_cast digitsVal_lt p.fpart hf
  have hpair := ratTrunc_add_frac (digitsVal p.ipart) _ hxnn hxlt
  unfold floatVal pyTruncOfLit
  cases hn : p.neg
  · simpa using hpair.1
  · have : (-1 : ℚ) * ((digitsVal p.ipart : ℚ) +
        (digitsVal p.fpart : ℚ) / (10 : ℚ) ^ p.fpart.length) =
        -((digitsVal p.ipart : ℚ) +
          (digitsVal p.fpart : ℚ) / (10 : ℚ) ^ p.fpart.length) := by ring
    simpa [this] using hpair.2

/-- For a positive base, the guarded product is the rational floor of
`base × 0.87745`. -/
theorem minBid_floor (base : Int) (hb : 0 < base) :
    minBidUnguarded base = ⌊(base : ℚ) * (87745 / 100000 : ℚ)⌋ := by
  have h1 : (base : ℚ) * (87745 / 100000 : ℚ) =
      ((base * 87745 : ℤ) : ℚ) / ((100000 : ℕ) : ℚ) := by push_cast; ring
  rw [h1, Rat.floor_intCast_div_natCast]
  unfold minBidUnguarded
  rw [Int.tdiv_eq_ediv (mul_nonneg hb.le (by norm_num)) (by norm_num)]
  norm_num

/-! # Claim theorems -/

/-- C1: every bid-notice row's derived minimum-bid field equals
`floor(base × 0.87745)` where `base` is the coerced budget when positive and
otherwise the coerced estimate, and `0` when `base ≤ 0`; the full pipeline on
budget `"1,000,000"`, estimate `"0"` yields `877450`, and `calc_min_bid` on
the other two specified inputs yields `1754900` and `0`. -/
theorem bid_min_bid_floor_spec :
    (∀ (df : PyDF) (excl : List String) (p : Nat × BidRow),
        p ∈ process_bid_for_excel df excl →
        p.2.minBid =
          if (if p.2.budget > 0 then p.2.budget else p.2.estim) > 0 then
            ⌊((if p.2.budget > 0 then p.2.budget else p.2.estim : Int) : ℚ) *
              (87745 / 100000 : ℚ)⌋
          else 0) ∧
    process_bid_for_excel
        ⟨["bidNtceNm", "asignBdgtAmt", "presmptPrce"],
         [[some "공고A", some "1,000,000", some "0"]]⟩ [] =
      [(1, ⟨"공고A", 1000000, 0, "", 877450⟩)] ∧
    calc_min_bid 0 2000000 = 1754900 ∧
    calc_min_bid 0 0 = 0 := by
  refine ⟨?_, by decide, by decide, by decide⟩
  intro df excl p hp
  simp only [process_bid_for_excel] at hp
  obtain ⟨-, hsrc⟩ := mem_pipeline _ _ _ _ _ _ hp
  obtain ⟨row, -, hrow⟩ := List.mem_map.mp hsrc
  have hmb : p.2.minBid = calc_min_bid p.2.budget p.2.estim := by
    rw [← hrow]; rfl
  rw [hmb]
  simp only [calc_min_bid]
  split
  · exact minBid_floor _ (by assumption)
  · split
    · exact minBid_floor _ (by assumption)
    · rfl

/-- C1 witness: the general part applied to a concrete one-row frame. -/
theorem bid_min_bid_floor_witness :
    (877450 : Int) = ⌊((1000000 : Int) : ℚ) * (87745 / 100000 : ℚ)⌋ :=
  bid_min_bid_floor_spec.1
    ⟨["bidNtceNm", "asignBdgtAmt", "presmptPrce"],
     [[some "공고A", some "1,000,000", some "0"]]⟩ []
    (1, ⟨"공고A", 1000000, 0, "", 877450⟩) (by decide)

/-- C2: the pagination loop's stop decision, per page.  An empty page always
stops.  On a non-empty page, a non-RD fetch stops exactly when the
accumulated item count has reached the reported `totalCount` (page fullness
is irrelevant), and an RD fetch stops exactly when the page returned fewer
than 10 items or the page index has reached 30.  The last group ties the
step decision to the loop itself: a stop decision makes
`fetch_data_from_api` return at once, a continue decision moves it to the
next page. -/
theorem fetch_termination_spec :
    (∀ (isRD : Bool) (acc : List RawRow) (page : Nat) (tc : Option Int),
        fetchStep isRD acc page (.ok [] tc) = .stop acc) ∧
    (∀ (acc : List RawRow) (page : Nat) (items : List RawRow) (tc : Option Int),
        items ≠ [] →
        (fetchStep false acc page (.ok items tc) = .stop (acc ++ items) ↔
          ∃ t, tc = some t ∧ t ≤ ((acc ++ items).length : Int)) ∧
        (fetchStep true acc page (.ok items tc) = .stop (acc ++ items) ↔
          items.length < 10 ∨ 30 ≤ page)) ∧
    (∀ (isRD : Bool) (resp : Nat → PageResp) (fuel : Nat) (acc : List RawRow)
        (page : Nat) (a : List RawRow),
        (fetchStep isRD acc page (resp page) = .stop a →
          fetch_data_from_api isRD resp (fuel + 1) acc page = a) ∧
        (fetchStep isRD acc page (resp page) = .next a →
          fetch_data_from_api isRD resp (fuel + 1) acc page =
            fetch_data_from_api isRD resp fuel a (page + 1))) := by
  refine ⟨fun isRD acc page tc => by simp [fetchStep], ?_, ?_⟩
  · intro acc page items tc hne
    have hie : items.isEmpty = false := by
      cases items with
      | nil => exact absurd rfl hne
      | cons x xs => rfl
    constructor
    · simp only [fetchStep, hie, Bool.false_eq_true, if_false]
      cases tc with
      | none => simp
      | some t =>
        split
        · simp_all
        · simp_all
    · simp only [fetchStep, hie, Bool.false_eq_true, if_false, if_true]
      split
      · rename_i h
        simp only [Bool.or_eq_true, decide_eq_true_eq] at h
        simpa using h
      · rename_i h
        simp only [Bool.or_eq_true, decide_eq_true_eq] at h
        simpa using h
  · intro isRD resp fuel acc page a
    constructor
    · intro h
      simp [fetch_data_from_api, h]
    · intro h
      simp [fetch_data_from_api, h]

/-- C2 witness: a first page with one item and `totalCount = 1` stops a
non-RD fetch immediately. -/
theorem fetch_termination_witness :
    fetchStep false [] 1 (.ok [[("bidNtceNm", some "A")]] (some 1)) =
      .stop [[("bidNtceNm", some "A")]] :=
  (fetch_termination_spec.2.1 [] 1 [[("bidNtceNm", some "A")]] (some 1)
      (by decide)).1.mpr ⟨1, rfl, by decide⟩

/-- C3 (amended): data-quality failures are absorbed to defaults in the
prior-spec/bid money coercion (`parse_money` → 0 on a malformed string) and
for a missing amount column in the order-plan processor (`get_val` default
`'0'`), but the order-plan amount coercion has no exception guard, so a
non-numeric amount string such as `"abc"` makes it raise (modelled `none`)
instead of producing a 0-amount table. -/
theorem error_absorption_spec :
    parse_money (some "abc") = 0 ∧
    process_prior_for_excel
        ⟨["prdctClsfcNoNm", "asignBdgtAmt"], [[some "P", some "abc"]]⟩ [] =
      [(1, ⟨"P", 0, ""⟩)] ∧
    process_order_for_excel [[("bizNm", some "X")]] [] =
      some [(1, ⟨"", "", "", "X", 0, "", ""⟩)] ∧
    process_order_for_excel
      [[("bizNm", some "X"), ("sumOrderAmt", some "abc")]] [] = none := by
  refine ⟨by decide, by decide, by decide, by decide⟩

/-- C3 counterexample: on a record whose amount field is `"abc"`, the
order-plan processor raises (modelled by `none`) — it does not return the
0-amount table the claim promises. -/
theorem order_malformed_raises_cex :
    process_order_for_excel
        [[("bizNm", some "X"), ("sumOrderAmt", some "abc")]] [] = none ∧
    (none : Option (List (Nat × OrderRow))) ≠
      some [(1, ⟨"", "", "", "X", 0, "", ""⟩)] := by
  refine ⟨by decide, by decide⟩

/-- C4 (amended): `get_val` (order-plan alias resolution) tries aliases in
priority order — an alias that hits (exactly, or case-insensitively as
`keyHit`'s fallback) wins, a miss moves to the next alias, exhaustion gives
the default — and a record carrying only the upper-cased key still resolves
through it; but the R&D processor matches its raw tags exactly and
case-sensitively, so for a record carrying only `SUBJECT` every tag lookup
misses, no assignment ever establishes the output frame's index, and the
processor returns an empty (zero-row) table instead of a row carrying that
value. -/
theorem alias_resolution_spec :
    (∀ (row : RawRow) (d : String), get_val row [] d = d) ∧
    (∀ (row : RawRow) (k : String) (ks : List String) (d v : String),
        keyHit row k = some v → get_val row (k :: ks) d = v) ∧
    (∀ (row : RawRow) (k : String) (ks : List String) (d : String),
        keyHit row k = none → get_val row (k :: ks) d = get_val row ks d) ∧
    get_val [("SUBJECT", some "엑스레이")] ["subject"] "" = "엑스레이" ∧
    process_rd_for_excel ⟨["SUBJECT"], [[some "엑스레이"]]⟩ [] [] = [] := by
  refine ⟨fun row d => rfl, ?_, ?_, by decide, by decide⟩
  · intro row k ks d v h
    simp [get_val, h]
  · intro row k ks d h
    simp [get_val, h]

/-- C4 witness: the priority rule applied to a concrete single-alias row. -/
theorem alias_resolution_witness :
    get_val [("bizNm", some " 사업 ")] ["bizNm"] "" = "사업" :=
  alias_resolution_spec.2.1 [("bizNm", some " 사업 ")] "bizNm" [] "" "사업"
    (by decide)

/-- C4 counterexample: a raw R&D record carrying only the upper-cased
`SUBJECT` tag normalizes to an empty table — no normalized row exists at
all, so in particular none carries the tag's value. -/
theorem rd_alias_case_sensitive_cex :
    process_rd_for_excel ⟨["SUBJECT"], [[some "엑스레이"]]⟩ [] [] = [] ∧
    (process_rd_for_excel ⟨["SUBJECT"], [[some "엑스레이"]]⟩ [] []).map
        (fun p => p.2.title) ≠ [some "엑스레이"] := by
  refine ⟨by decide, by decide⟩

/-- C5 (amended): a parsed deadline is marked urgent iff it is strictly after
"now" and strictly less than 8×24h ahead.  Because `Timedelta.days` floors,
`(deadline - now).days ≤ 7` admits everything up to (not including) 8 days,
so a deadline 7 days + 1 second ahead is still urgent; the exact 7-day point
is urgent and the past is never urgent. -/
theorem urgency_boundary_spec :
    ∀ (now deadline : Int),
      is_urgent now deadline = true ↔
        now < deadline ∧ deadline - now < 8 * 86400 := by
  intro now deadline
  simp only [is_urgent, Bool.and_eq_true, decide_eq_true_eq]
  constructor
  · rintro ⟨h1, h2⟩
    exact ⟨h2, by omega⟩
  · rintro ⟨h1, h2⟩
    exact ⟨by omega, h1⟩

/-- C5 counterexample: one second past the 7×24h boundary the row is still
marked urgent, although the claim says it must not be. -/
theorem urgency_boundary_cex :
    is_urgent 0 (7 * 86400 + 1) = true ∧
    ¬ ((0 : Int) < 7 * 86400 + 1 ∧ (7 * 86400 + 1 : Int) - 0 ≤ 7 * 86400) := by
  refine ⟨by decide, by decide⟩

/-- C6 (amended): the order-plan, prior-spec and bid-notice tables never
contain a row whose designated title is blank after trimming; the R&D
processor has no such filter — its rows are only thinned by the keyword
inclusion filter, so with an empty keyword list a whitespace-only title row
is retained. -/
theorem row_validity_spec :
    (∀ (rows : List RawRow) (excl : List String) (t : List (Nat × OrderRow)),
        process_order_for_excel rows excl = some t →
        ∀ p ∈ t, pyStrip p.2.bizName ≠ "") ∧
    (∀ (df : PyDF) (excl : List String) (p : Nat × PriorRow),
        p ∈ process_prior_for_excel df excl → pyStrip p.2.title ≠ "") ∧
    (∀ (df : PyDF) (excl : List String) (p : Nat × BidRow),
        p ∈ process_bid_for_excel df excl → pyStrip p.2.title ≠ "") ∧
    process_rd_for_excel ⟨["subject"], [[some " "]]⟩ [] [] =
      [(1, ⟨some " ", some "", some "", some ""⟩)] := by
  refine ⟨?_, ?_, ?_, by decide⟩
  · intro rows excl t h p hp
    unfold process_order_for_excel at h
    cases hm : rows.mapM buildOrderRow with
    | none => rw [hm] at h; exact absurd h (by simp)
    | some built =>
      rw [hm] at h
      simp only [Option.some.injEq] at h
      rw [← h] at hp
      exact of_decide_eq_true (mem_pipeline _ _ _ _ _ _ hp).1
  · intro df excl p hp
    simp only [process_prior_for_excel] at hp
    exact of_decide_eq_true (mem_pipeline _ _ _ _ _ _ hp).1
  · intro df excl p hp
    simp only [process_bid_for_excel] at hp
    exact of_decide_eq_true (mem_pipeline _ _ _ _ _ _ hp).1

/-- C6 witness: the prior-spec part applied to a concrete one-row frame. -/
theorem row_validity_witness :
    pyStrip (⟨"사업P", 0, ""⟩ : PriorRow).title ≠ "" :=
  row_validity_spec.2.1 ⟨["prdctClsfcNoNm"], [[some "사업P"]]⟩ []
    (1, ⟨"사업P", 0, ""⟩) (by decide)

/-- C6 counterexample: with an empty keyword list the R&D table keeps a row
whose title is whitespace-only, contradicting the claim that such rows are
always excluded. -/
theorem rd_blank_title_retained_cex :
    (1, (⟨some " ", some "", some "", some ""⟩ : RDRow)) ∈
      process_rd_for_excel ⟨["subject"], [[some " "]]⟩ [] [] ∧
    pyStrip (cellStr (some " ")) = "" := by
  refine ⟨by decide, by decide⟩

/-- C7: with a non-empty exclusion list, a row survives
`apply_exclusion_filter` iff it was present and its designated text contains
none of the exclusion keywords as a literal substring; containment is
case-sensitive, so a title carrying only a differently-cased variant of a
keyword is kept while the exact variant is dropped. -/
theorem exclusion_filter_spec :
    (∀ (α : Type) (rows : List α) (titleOf : α → String) (excl : List String)
        (r : α), excl ≠ [] →
        (r ∈ apply_exclusion_filter rows titleOf excl ↔
          r ∈ rows ∧ excl.any (fun e => strContains (titleOf r) e) = false)) ∧
    "검사 x-ray 장비" ∈
      apply_exclusion_filter ["검사 x-ray 장비"] (fun s => s) ["X-ray"] ∧
    "검사 X-ray 장비" ∉
      apply_exclusion_filter ["검사 X-ray 장비"] (fun s => s) ["X-ray"] := by
  refine ⟨?_, by decide, by decide⟩
  intro α rows titleOf excl r hne
  unfold apply_exclusion_filter
  have he : excl.isEmpty = false := by
    cases excl with
    | nil => exact absurd rfl hne
    | cons x xs => rfl
  cases rows with
  | nil => simp
  | cons x xs =>
    simp only [List.isEmpty_cons, he, Bool.or_false, Bool.false_eq_true,
      if_false, List.mem_filter]
    constructor
    · rintro ⟨h1, h2⟩
      exact ⟨h1, by simpa using h2⟩
    · rintro ⟨h1, h2⟩
      exact ⟨h1, by simpa using h2⟩

/-- C7 witness: the characterization applied to a concrete row and keyword
list. -/
theorem exclusion_filter_witness :
    "안전 점검" ∈ apply_exclusion_filter ["안전 점검"] (fun s => s) ["유지보수"] :=
  (exclusion_filter_spec.1 String ["안전 점검"] (fun s => s) ["유지보수"]
      "안전 점검" (by decide)).mpr ⟨by decide, by decide⟩

/-- Characterization of the window loop's fold: items, fetch log and callback
log each extend by exactly one window's contribution per index. -/
theorem splitStep_foldl (f : Int → Int → String → List RawRow) (now : Int)
    (keywords : List String) (months : Nat) :
    ∀ (l : List Nat)
      (st : List RawRow × List (Int × Int × String) × List (Nat × Nat)),
      l.foldl (splitStep f now keywords months) st =
        (st.1 ++ l.flatMap (windowItems f now keywords),
         st.2.1 ++ l.flatMap (windowFetches now keywords),
         st.2.2 ++ l.map (fun i => (i + 1, months))) := by
  intro l
  induction l with
  | nil => intro st; simp
  | cons i is ih =>
    intro st
    simp only [List.foldl_cons, ih, splitStep, List.flatMap_cons, List.map_cons]
    simp [List.append_assoc]

/-- C8: over `N` months the splitter issues exactly one fetch per
(window, keyword) pair — window `i` spanning
`[now − (i+1)·30 days, now − i·30 days)` — and after each window invokes the
progress callback with `(i+1, N)`; every window spans 30 days, window 0 ends
at `now`, and window 2 starts 90 days before `now`. -/
theorem window_splitter_spec :
    ∀ (f : Int → Int → String → List RawRow) (now : Int)
      (keywords : List String) (months : Nat),
      (fetch_bid_data_split f now keywords months).2.1 =
        (List.range months).flatMap (windowFetches now keywords) ∧
      (∀ i : Nat, windowFetches now keywords i =
        keywords.map (fun kw => (windowStart now i, windowEnd now i, kw))) ∧
      (fetch_bid_data_split f now keywords months).2.2 =
        (List.range months).map (fun i => (i + 1, months)) ∧
      (∀ i : Nat, windowEnd now i - windowStart now i = 30 * secPerDay) ∧
      windowEnd now 0 = now ∧
      windowStart now 2 = now - 90 * secPerDay := by
  intro f now keywords months
  refine ⟨?_, fun i => rfl, ?_, ?_, ?_, ?_⟩
  · unfold fetch_bid_data_split
    rw [splitStep_foldl]
    simp
  · unfold fetch_bid_data_split
    rw [splitStep_foldl]
    simp
  · intro i
    unfold windowEnd windowStart secPerDay
    ring
  · unfold windowEnd secPerDay
    norm_num
  · unfold windowStart secPerDay
    norm_num

/-- C9: money coercion strips the comma thousands separators, parses the rest
as a real number and truncates toward zero — any parse failure yields 0 — 
with the four specified example inputs. -/
theorem money_coercion_spec :
    (∀ (s : String) (p : PyFloatLit),
        pyFloatParse (moneyClean s) = some p →
        parse_money (some s) = ratTrunc (floatVal p)) ∧
    (∀ s : String, pyFloatParse (moneyClean s) = none →
        parse_money (some s) = 0) ∧
    parse_money (some "1,234,567") = 1234567 ∧
    parse_money (some "") = 0 ∧
    parse_money (some "not-a-number") = 0 ∧
    parse_money (some "-1,2x3") = 0 := by
  refine ⟨?_, ?_, by decide, by decide, by decide, by decide⟩
  · intro s p h
    simp only [parse_money, cellStr, h]
    exact (ratTrunc_floatVal p (fpart_all_isDigit _ p h)).symm
  · intro s h
    simp only [parse_money, cellStr, h]

/-- C9 witness: the truncation rule applied to the concrete literal `"3.9"`. -/
theorem money_coercion_witness :
    parse_money (some "3.9") = ratTrunc (floatVal ⟨false, ['3'], ['9']⟩) :=
  money_coercion_spec.1 "3.9" ⟨false, ['3'], ['9']⟩ (by decide)

/-- C10: a well-formed negative numeric string is coerced to its (negative)
value, not to 0 — the 0 default applies only to parse failures — and the
minimum-bid computation returns 0 on such a base solely because of its
`base > 0` guard: the unguarded product at −100 would be −87. -/
theorem negative_money_spec :
    parse_money (some "-100") = -100 ∧
    parse_money (some "-100") < 0 ∧
    calc_min_bid 0 (parse_money (some "-100")) = 0 ∧
    minBidUnguarded (-100) = -87 ∧
    minBidUnguarded (-100) ≠ 0 := by
  refine ⟨by decide, by decide, by decide, by decide, by decide⟩
